import Mathlib

/-!
Shallow embedding of the drawing-board websocket server (Go, package main:
schema.go and the main server file).

Modelling conventions:
- JSON marshal/unmarshal of the structured values the server builds itself is
  modelled as the identity on abstract `Message` values: the server only ever
  re-encodes values it has just decoded or constructed, and the claims are
  about those values, not the byte encoding.
- The envelope field `Data interface{}` is modelled by the inductive `MsgData`:
  `element e` stands for inbound data that `json.Unmarshal` successfully parses
  into a `DrawElement`, `raw s` for inbound data that does not (Go carries it
  verbatim and re-marshals it unchanged), and the remaining constructors are
  the server-generated payload shapes.
- `DrawElement`'s geometric `float64` fields are never inspected or computed on
  by the server, only carried through; they are modelled as `Int` so that
  equality of elements stays decidable.
- A Go map keyed by `*Client` pointers is modelled as a `List Client` where
  identity is list position; the sender of a broadcast is identified by its
  position.
-/

/-- MessageType constant "draw" from schema.go. -/
def TypeDraw : String := "draw"

/-- MessageType constant "clear" from schema.go. -/
def TypeClear : String := "clear"

/-- MessageType constant "sync" from schema.go. -/
def TypeSync : String := "sync"

/-- MessageType constant "join" from schema.go. -/
def TypeJoin : String := "join"

/-- MessageType constant "leave" from schema.go. -/
def TypeLeave : String := "leave"

/-- MessageType constant "cursor" from schema.go. -/
def TypeCursor : String := "cursor"

/-- MessageType constant "userlist" from schema.go. -/
def TypeUserList : String := "userlist"

/-- DrawElement from schema.go: one drawing primitive. The Go field `Type`
(json "elementType") is `elemType` here because `Type` is reserved in Lean;
the float64 geometry fields are opaque payload, modelled as `Int`. -/
structure DrawElement where
  id : String
  elemType : String
  x1 : Int
  y1 : Int
  x2 : Int
  y2 : Int
  strokeColor : String
  strokeWidth : Int
  userId : String
deriving DecidableEq, Repr

/-- UserInfo from schema.go: a connected user's id and display color. -/
structure UserInfo where
  id : String
  color : String
deriving DecidableEq, Repr

/-- The possible shapes of the envelope's `Data interface{}` field. An
inbound frame's data is always represented by `nullData` (JSON null / field
absent), `element e` (a JSON value whose re-marshal unmarshals into a
DrawElement — any JSON object without type-conflicting fields), or `raw s`
(a JSON value whose re-marshal does not — a string, number, boolean, array,
or an object with a type-conflicting field, carried verbatim). The remaining
constructors are the payload shapes the server itself builds for outbound
messages; they never occur on the inbound path. -/
inductive MsgData where
  /-- Go `nil` data (field absent / JSON null). -/
  | nullData : MsgData
  /-- Inbound data that parses as a DrawElement, or a server-built element. -/
  | element (e : DrawElement) : MsgData
  /-- Inbound data that does NOT parse as a DrawElement (carried verbatim). -/
  | raw (s : String) : MsgData
  /-- Server-built sync payload: elements snapshot, joiner id, color. -/
  | sync (elements : List DrawElement) (userId : String) (color : String) : MsgData
  /-- Server-built join payload: the joiner's roster entry. -/
  | user (u : UserInfo) : MsgData
  /-- Server-built userlist payload: the current roster. -/
  | userList (us : List UserInfo) : MsgData
deriving DecidableEq, Repr

/-- Message from schema.go: the envelope for all WebSocket messages. -/
structure Message where
  type : String
  userId : String
  data : MsgData
deriving DecidableEq, Repr

/-- Client from the server file: server-assigned id, display color, the
bounded outbound queue (`Send chan []byte`, modelled as the list of queued
payloads, oldest first) and the `closed` flag. -/
structure Client where
  id : String
  color : String
  send : List Message
  closed : Bool
deriving DecidableEq, Repr

/-- Capacity of a client's Send channel: `make(chan []byte, 256)` in
handleWebSocket. -/
def sendCap : Nat := 256

/-- Room from the server file: membership (list position = pointer identity)
and the ordered element log. -/
structure Room where
  id : String
  clients : List Client
  elements : List DrawElement
deriving DecidableEq, Repr

/-- The body of the non-blocking send in Broadcast/BroadcastToAll, executed
under the client's own lock: if the client is not closed and the channel has
room, the payload is appended to the queue (`delivered = true`); otherwise
nothing is written (`delivered = false`, the `default:` branch or the closed
check). Total function: the producer side never blocks. -/
def tryEnqueue (c : Client) (m : Message) : Client × Bool :=
  if c.closed then (c, false)
  else if c.send.length < sendCap then ({ c with send := c.send ++ [m] }, true)
  else (c, false)

/-- The `for client := range r.Clients` loop of Broadcast: every client except
the one at the sender's position gets a tryEnqueue attempt. `i` is the position
of the head of the remaining list. -/
def broadcastClients (m : Message) (sender : Nat) : Nat → List Client → List Client
  | _, [] => []
  | i, c :: cs =>
      (if i = sender then c else (tryEnqueue c m).1) :: broadcastClients m sender (i + 1) cs

/-- Room.Broadcast: sends `m` to all clients in the room except the sender. -/
def Room.Broadcast (r : Room) (m : Message) (sender : Nat) : Room :=
  { r with clients := broadcastClients m sender 0 r.clients }

/-- Room.BroadcastToAll: sends `m` to all clients including the sender. -/
def Room.BroadcastToAll (r : Room) (m : Message) : Room :=
  { r with clients := r.clients.map (fun c => (tryEnqueue c m).1) }

/-- Room.AddElement: appends a drawing element to the room's log. -/
def Room.AddElement (r : Room) (e : DrawElement) : Room :=
  { r with elements := r.elements ++ [e] }

/-- Room.ClearElements: replaces the element log with the empty sequence. -/
def Room.ClearElements (r : Room) : Room :=
  { r with elements := [] }

/-- Room.GetElements: returns a copy of all elements (a Go slice copy; at the
level of values, the copy is the list itself). -/
def Room.GetElements (r : Room) : List DrawElement :=
  r.elements

/-- Room.AddClient: adds a client to the membership (map insert; modelled as
appending, so the new client's position is the old length). -/
def Room.AddClient (r : Room) (c : Client) : Room :=
  { r with clients := r.clients ++ [c] }

/-- Room.GetUserList: the (id, color) roster of current members. -/
def Room.GetUserList (r : Room) : List UserInfo :=
  r.clients.map (fun c => { id := c.id, color := c.color })

/-- The zero value of the Go DrawElement struct: what
`json.Unmarshal([]byte("null"), &element)` leaves behind (it succeeds and
writes nothing). -/
def zeroElement : DrawElement :=
  { id := "", elemType := "", x1 := 0, y1 := 0, x2 := 0, y2 := 0,
    strokeColor := "", strokeWidth := 0, userId := "" }

/-- The `json.Marshal(msg.Data)` / `json.Unmarshal(dataBytes, &element)`
round-trip of the draw branch: an `element` value parses to itself, JSON null
parses to the zero-valued struct (Go's unmarshal of null into a struct is a
successful no-op), and `raw` data fails. The server-built outbound shapes
never reach this inbound code; mapping them to a parse failure keeps the
function total. -/
def parseElement : MsgData → Option DrawElement
  | .element e => some e
  | .nullData => some zeroElement
  | _ => none

/-- The dispatch switch of readPump for one successfully-unmarshalled envelope
`m0`, running on the connection with server-assigned id `cid` sitting at
position `sender` of the room's membership. Returns the updated room and the
payload handed to Broadcast/BroadcastToAll (`none` when the switch falls
through without broadcasting). Mirrors the source exactly:
`msg.UserID = c.ID` first; for `draw`, if the data re-parses as an element its
`UserID` is overwritten, the element is appended and `msg.Data` replaced by the
canonical element, and the (possibly unparsed) envelope is then broadcast to
others unconditionally; `cursor` broadcasts to others; `clear` clears then
broadcasts to all; any other tag is a no-op. -/
def routeMessage (r : Room) (sender : Nat) (cid : String) (m0 : Message) :
    Room × Option Message :=
  let m : Message := { m0 with userId := cid }
  if m.type = TypeDraw then
    match parseElement m.data with
    | some e0 =>
        let e : DrawElement := { e0 with userId := cid }
        let r1 := r.AddElement e
        let mOut : Message := { m with data := .element e }
        (r1.Broadcast mOut sender, some mOut)
    | none =>
        (r.Broadcast m sender, some m)
  else if m.type = TypeCursor then
    (r.Broadcast m sender, some m)
  else if m.type = TypeClear then
    ((r.ClearElements).BroadcastToAll m, some m)
  else
    (r, none)

/-- One read of the readPump loop, as seen by the loop body. -/
inductive ReadResult where
  /-- `c.Conn.ReadMessage()` returned an error: `break`, teardown follows. -/
  | readErr : ReadResult
  /-- A frame arrived whose bytes do not unmarshal into a Message envelope:
  logged, `continue`. -/
  | malformed (bytes : String) : ReadResult
  /-- A frame arrived that unmarshalled into the envelope `m`. -/
  | envelope (m : Message) : ReadResult
deriving DecidableEq, Repr

/-- One iteration of the readPump loop: the updated room, the broadcast
payload if any, and whether the loop continues (`false` = the connection is
being torn down). -/
def readPumpStep (r : Room) (sender : Nat) (cid : String) (rr : ReadResult) :
    Room × Option Message × Bool :=
  match rr with
  | .readErr => (r, none, false)
  | .malformed _ => (r, none, true)
  | .envelope m =>
      let (r1, p) := routeMessage r sender cid m
      (r1, p, true)

/-- The join path of handleWebSocket after the upgrade succeeds: build the
client with an empty 256-capacity queue, add it to the room, build the sync
message from a snapshot of the room's elements (unicast directly to the new
connection, not queued), broadcast the join notice to the others, then the
refreshed userlist to all. Returns the resulting room and the sync message. -/
def handleWebSocketJoin (r : Room) (userID : String) (color : String) :
    Room × Message :=
  let client : Client := { id := userID, color := color, send := [], closed := false }
  let r1 := r.AddClient client
  let syncMsg : Message :=
    { type := TypeSync, userId := userID,
      data := .sync r1.GetElements userID color }
  let joinMsg : Message :=
    { type := TypeJoin, userId := userID, data := .user { id := userID, color := color } }
  let r2 := r1.Broadcast joinMsg r.clients.length
  let userListMsg : Message :=
    { type := TypeUserList, userId := "", data := .userList r2.GetUserList }
  let r3 := r2.BroadcastToAll userListMsg
  (r3, syncMsg)

/-! ### The id generator (randomInt / randomString / generateID) -/

/-- 2^64, the modulus of the Go `uint64` seed arithmetic. -/
def uint64Mod : Nat := 2 ^ 64

/-- Initial value of the global `randSeed` variable: `var randSeed uint64 = 1`. -/
def randSeedInit : Nat := 1

/-- One update of the seed: `randSeed = randSeed*1103515245 + 12345` on uint64. -/
def randStep (seed : Nat) : Nat := (seed * 1103515245 + 12345) % uint64Mod

/-- Go's conversion of a `uint64` value to `int` (int64 on a 64-bit target):
values below 2^63 are unchanged, larger ones wrap to negatives. -/
def int64OfUInt64 (u : Nat) : Int :=
  if u < 2 ^ 63 then (u : Int) else (u : Int) - (uint64Mod : Int)

/-- randomInt(max): advance the seed, then `int(randSeed/65536) % max`.
Go's `%` on `int` is truncated remainder, hence `Int.tmod`. Returns the result
together with the updated seed (the Go global, threaded explicitly). -/
def randomInt (mx : Int) (seed : Nat) : Int × Nat :=
  let s := randStep seed
  (Int.tmod (int64OfUInt64 (s / 65536)) mx, s)

/-- The alphabet of randomString (62 ASCII characters). -/
def letters : String := "abcdefghijklmnopqrstuvwxyzABCDEFGHIJKLMNOPQRSTUVWXYZ0123456789"

/-- The loop of randomString: `b[i] = letters[randomInt(len(letters))]` for
each position. Indexing is modelled with `getD` so the function is total; the
safety claim is that the default branch is never taken. -/
def randomChars : Nat → Nat → List Char × Nat
  | 0, seed => ([], seed)
  | n + 1, seed =>
      let (k, s1) := randomInt (letters.length : Int) seed
      let ch := letters.toList.getD k.toNat 'a'
      let (rest, s2) := randomChars n s1
      (ch :: rest, s2)

/-- randomString(n): a string of n characters drawn from `letters`. -/
def randomString (n : Nat) (seed : Nat) : String × Nat :=
  let (cs, s) := randomChars n seed
  (String.mk cs, s)

/-- generateID(): `randomString(8)`. -/
def generateID (seed : Nat) : String × Nat := randomString 8 seed

set_option maxRecDepth 4000

/-- A run of the process's id generator: `GenTrace seed ids` holds when a
process whose global seed currently holds `seed` can emit exactly the
sequence `ids` over some number of successive generateID calls. -/
inductive GenTrace : Nat → List String → Prop where
  | nil (seed : Nat) : GenTrace seed []
  | cons (seed : Nat) (uid : String) (seed' : Nat) (ids : List String) :
      generateID seed = (uid, seed') → GenTrace seed' ids → GenTrace seed (uid :: ids)

/-! ### The connection teardown protocol as a transition system

Each constructor of `ConnReachable` below is one critical section over the
connection's mutex `c.mu`, which is what makes a whole step atomic: the
teardown step is the `defer` block of readPump (`c.closed = true` and
`close(c.Send)` inside one Lock/Unlock pair), the enqueue step is the body of
the broadcast loop for this client (flag check plus non-blocking channel
send inside one Lock/Unlock pair), and the drain step is writePump receiving
one payload. -/

/-- The state of one connection's queue/flag pair. `closed` is the
`Client.closed` flag; `sendClosed` records whether `close(c.Send)` has run. -/
structure ConnState where
  closed : Bool
  sendClosed : Bool
  send : List Message
deriving DecidableEq, Repr

/-- One broadcast attempt on this connection, under `c.mu`: if the closed
flag is set, nothing happens; otherwise the non-blocking send runs, which in
Go panics if the channel has been closed — modelled as `none`. -/
def enqueueStep (s : ConnState) (m : Message) : Option ConnState :=
  if s.closed then some s
  else if s.sendClosed then none
  else if s.send.length < sendCap then some { s with send := s.send ++ [m] }
  else some s

/-- The teardown critical section of readPump's defer: set the closed flag
and close the Send channel together. -/
def teardownStep (s : ConnState) : ConnState :=
  { s with closed := true, sendClosed := true }

/-- writePump consuming one queued payload. -/
def drainStep (s : ConnState) : ConnState :=
  { s with send := s.send.tail }

/-- The reachable states of one connection, starting from the open state with
an empty queue, under any interleaving of atomic teardown / enqueue / drain
critical sections. An enqueue step is only taken when it does not panic,
which is exactly what the no-send-after-close theorem shows is always the
case. -/
inductive ConnReachable : ConnState → Prop where
  | init : ConnReachable { closed := false, sendClosed := false, send := [] }
  | teardown {s : ConnState} : ConnReachable s → ConnReachable (teardownStep s)
  | enqueue {s s' : ConnState} {m : Message} :
      ConnReachable s → enqueueStep s m = some s' → ConnReachable s'
  | drain {s : ConnState} : ConnReachable s → ConnReachable (drainStep s)

/-! ### Harness definitions used to state the claims -/

/-- Overwrite the client-controlled identity fields of an inbound envelope:
the wire `userId`, and, for a draw envelope whose data parses as an element,
the element's `userId`. -/
def setWireIds (m : Message) (u v : String) : Message :=
  { m with
    userId := u,
    data :=
      if m.type = TypeDraw then
        match m.data with
        | .element e => .element { e with userId := v }
        | d => d
      else m.data }

/-- Check that an outbound payload carries the server-assigned id: its
envelope `userId` is `cid`, and, when it is a draw envelope carrying an
element, the element's `userId` is `cid` too. -/
def senderIdOk (cid : String) (p : Message) : Bool :=
  p.userId == cid &&
    (if p.type == TypeDraw then
        match p.data with
        | .element e => e.userId == cid
        | _ => true
      else true)

/-- Check that an element log grew only by elements authored (after the
server overwrite) by `cid`: the old log is a prefix and every appended
element carries `cid`. -/
def newElementsOk (cid : String) (old newLog : List DrawElement) : Bool :=
  decide (newLog.take old.length = old) &&
    (newLog.drop old.length).all (fun e => e.userId == cid)

/-- Attempt a sequence of enqueues on one client with no consumer draining,
recording each delivered/dropped outcome in order. -/
def enqueueAll (c : Client) : List Message → Client × List Bool
  | [] => (c, [])
  | m :: ms =>
      let (c1, ok) := tryEnqueue c m
      let (c2, oks) := enqueueAll c1 ms
      (c2, ok :: oks)

/-- The inbound draw envelope a client sends for element `e` (the wire
`userId` fields it carries are about to be overwritten by the server). -/
def drawEnvelope (e : DrawElement) : Message :=
  { type := TypeDraw, userId := e.userId, data := .element e }

/-- Run a sequence of draw operations through the router: each entry is the
sending connection's position, its server-assigned id, and the element its
data parses to. -/
def processDraws : Room → List (Nat × String × DrawElement) → Room
  | r, [] => r
  | r, (s, cid, e) :: ops => processDraws (routeMessage r s cid (drawEnvelope e)).1 ops

/-- The payload a draw envelope with data `d` is broadcast with: the
canonical id-overwritten element when the data parses, the verbatim data
otherwise. -/
def drawBroadcastPayload (cid : String) (d : MsgData) : Message :=
  match parseElement d with
  | some e => { type := TypeDraw, userId := cid, data := .element { e with userId := cid } }
  | none => { type := TypeDraw, userId := cid, data := d }

/-! ### Concrete fixtures used by witnesses and counterexamples -/

/-- A concrete drawing element as a client would send it (wire userId "evil"
is about to be overwritten). -/
def elemA : DrawElement :=
  { id := "e1", elemType := "line", x1 := 0, y1 := 0, x2 := 1, y2 := 1,
    strokeColor := "#000000", strokeWidth := 2, userId := "evil" }

/-- A concrete open client with server-assigned id "A". -/
def clientA : Client := { id := "A", color := "#e74c3c", send := [], closed := false }

/-- A concrete open client with server-assigned id "B". -/
def clientB : Client := { id := "B", color := "#3498db", send := [], closed := false }

/-- A concrete room, members A (position 0) and B (position 1), empty log. -/
def roomAB : Room := { id := "abc123", clients := [clientA, clientB], elements := [] }

/-- A concrete payload used to fill queues. -/
def msgK : Message := { type := TypeCursor, userId := "A", data := .raw "p" }

/-! ### Basic lemmas about the building blocks -/

theorem tryEnqueue_id (c : Client) (m : Message) : ((tryEnqueue c m).1).id = c.id := by
  unfold tryEnqueue; split_ifs <;> rfl

theorem tryEnqueue_color (c : Client) (m : Message) : ((tryEnqueue c m).1).color = c.color := by
  unfold tryEnqueue; split_ifs <;> rfl

theorem tryEnqueue_closed (c : Client) (m : Message) : ((tryEnqueue c m).1).closed = c.closed := by
  unfold tryEnqueue; split_ifs <;> rfl

theorem broadcastClients_getElem (m : Message) (sender : Nat) :
    ∀ (cs : List Client) (i j : Nat),
      (broadcastClients m sender i cs)[j]? =
        (cs[j]?).map (fun c => if i + j = sender then c else (tryEnqueue c m).1) := by
  intro cs
  induction cs with
  | nil => intro i j; simp [broadcastClients]
  | cons c cs ih =>
      intro i j
      cases j with
      | zero => simp [broadcastClients]
      | succ j =>
          have h : i + (j + 1) = (i + 1) + j := by omega
          simp [broadcastClients, ih (i + 1) j, h]

theorem Broadcast_getElem (r : Room) (m : Message) (sender j : Nat) :
    (r.Broadcast m sender).clients[j]? =
      (r.clients[j]?).map (fun c => if j = sender then c else (tryEnqueue c m).1) := by
  have h := broadcastClients_getElem m sender r.clients 0 j
  simpa [Room.Broadcast] using h

theorem BroadcastToAll_getElem (r : Room) (m : Message) (j : Nat) :
    (r.BroadcastToAll m).clients[j]? = (r.clients[j]?).map (fun c => (tryEnqueue c m).1) := by
  simp [Room.BroadcastToAll]

theorem Broadcast_elements (r : Room) (m : Message) (sender : Nat) :
    (r.Broadcast m sender).elements = r.elements := rfl

theorem BroadcastToAll_elements (r : Room) (m : Message) :
    (r.BroadcastToAll m).elements = r.elements := rfl

theorem routeMessage_draw_parse (r : Room) (sender : Nat) (cid u : String) (d : MsgData)
    (e : DrawElement) (h : parseElement d = some e) :
    routeMessage r sender cid { type := TypeDraw, userId := u, data := d } =
      ((r.AddElement { e with userId := cid }).Broadcast
          { type := TypeDraw, userId := cid, data := .element { e with userId := cid } } sender,
        some { type := TypeDraw, userId := cid, data := .element { e with userId := cid } }) := by
  simp [routeMessage, h]

theorem routeMessage_draw_noparse (r : Room) (sender : Nat) (cid u : String) (d : MsgData)
    (h : parseElement d = none) :
    routeMessage r sender cid { type := TypeDraw, userId := u, data := d } =
      (r.Broadcast { type := TypeDraw, userId := cid, data := d } sender,
        some { type := TypeDraw, userId := cid, data := d }) := by
  simp [routeMessage, h]

theorem routeMessage_cursor (r : Room) (sender : Nat) (cid u : String) (d : MsgData) :
    routeMessage r sender cid { type := TypeCursor, userId := u, data := d } =
      (r.Broadcast { type := TypeCursor, userId := cid, data := d } sender,
        some { type := TypeCursor, userId := cid, data := d }) := by
  simp [routeMessage, TypeCursor, TypeDraw]

theorem routeMessage_clear (r : Room) (sender : Nat) (cid u : String) (d : MsgData) :
    routeMessage r sender cid { type := TypeClear, userId := u, data := d } =
      ((r.ClearElements).BroadcastToAll { type := TypeClear, userId := cid, data := d },
        some { type := TypeClear, userId := cid, data := d }) := by
  simp [routeMessage, TypeClear, TypeDraw, TypeCursor]

theorem routeMessage_other (r : Room) (sender : Nat) (cid : String) (m : Message)
    (hd : m.type ≠ TypeDraw) (hc : m.type ≠ TypeCursor) (hcl : m.type ≠ TypeClear) :
    routeMessage r sender cid m = (r, none) := by
  cases m with
  | mk t uid d => simp_all [routeMessage]

theorem map_tryEnqueue_proj (cs : List Client) (m : Message) :
    (cs.map (fun c => (tryEnqueue c m).1)).map (fun c => (c.id, c.color, c.closed)) =
      cs.map (fun c => (c.id, c.color, c.closed)) := by
  induction cs with
  | nil => rfl
  | cons c cs ih => simp [ih, tryEnqueue_id, tryEnqueue_color, tryEnqueue_closed]

theorem processDraws_elements :
    ∀ (ops : List (Nat × String × DrawElement)) (r : Room),
      (processDraws r ops).elements =
        r.elements ++ ops.map (fun op => { op.2.2 with userId := op.2.1 }) := by
  intro ops
  induction ops with
  | nil => intro r; simp [processDraws]
  | cons op ops ih =>
      intro r
      obtain ⟨s, cid, e⟩ := op
      have hstep := routeMessage_draw_parse r s cid e.userId (.element e) e rfl
      simp [processDraws, drawEnvelope, hstep, ih, Room.AddElement, Broadcast_elements]

/-- C8: a well-formed envelope whose tag is none of draw/cursor/clear —
including the server-only tags sync, join, leave, userlist, and unknown
tags — is a complete no-op: the room (element log, membership, every queue)
is returned unchanged, nothing is broadcast, and the read loop continues. -/
theorem unknown_tag_is_noop (r : Room) (sender : Nat) (cid : String) (m : Message)
    (hd : m.type ≠ TypeDraw) (hc : m.type ≠ TypeCursor) (hcl : m.type ≠ TypeClear) :
    readPumpStep r sender cid (.envelope m) = (r, none, true) := by
  simp [readPumpStep, routeMessage_other r sender cid m hd hc hcl]

/-- Witness for C8 at the server-only tag "sync" in a concrete room. -/
theorem unknown_tag_is_noop_witness :
    readPumpStep roomAB 0 "A"
        (.envelope { type := TypeSync, userId := "x", data := .nullData }) =
      (roomAB, none, true) :=
  unknown_tag_is_noop roomAB 0 "A" _ (by decide) (by decide) (by decide)

/-- C2, counterexample: the claim says a draw message whose data does not
parse as an Element is discarded with nothing broadcast, but the source
broadcasts the envelope anyway (the broadcast sits outside the
parse-success block). Concrete wire input: a frame whose JSON carries
type "draw", userId "evil" and the string "hello" as data — the envelope
unmarshals, `json.Unmarshal` of the string "hello" into DrawElement fails,
no element is appended, yet member B's queue receives the envelope. -/
theorem malformed_draw_data_is_still_broadcast :
    (readPumpStep roomAB 0 "A"
        (.envelope { type := TypeDraw, userId := "evil", data := .raw "hello" })).2.1 ≠ none
    ∧ ((readPumpStep roomAB 0 "A"
          (.envelope { type := TypeDraw, userId := "evil", data := .raw "hello" })).1.clients.map
        Client.send) =
        [[], [{ type := TypeDraw, userId := "A", data := .raw "hello" }]] := by
  decide

/-- C2 as amended: a malformed envelope is logged and discarded (no append,
no broadcast, loop continues); a well-formed draw envelope whose data does
not parse as an Element appends nothing and leaves the connection open, but
the envelope — sender id overwritten, data carried verbatim — is still
broadcast to the other members. -/
theorem decode_failure_handling (r : Room) (sender : Nat) (cid bytes u dat : String) :
    readPumpStep r sender cid (.malformed bytes) = (r, none, true)
    ∧ (readPumpStep r sender cid
          (.envelope { type := TypeDraw, userId := u, data := .raw dat })).1.elements =
        r.elements
    ∧ (readPumpStep r sender cid
          (.envelope { type := TypeDraw, userId := u, data := .raw dat })).2 =
        (some { type := TypeDraw, userId := cid, data := .raw dat }, true) := by
  refine ⟨rfl, ?_, ?_⟩ <;>
    simp [readPumpStep, routeMessage_draw_noparse r sender cid u (.raw dat) rfl,
      Broadcast_elements]

/-- C3: after any sequence of draw operations, the element log is exactly the
initial log extended, in order, by the appended elements (each with the
server-overwritten author id), and the sync payload handed to a new joiner
carries exactly that log — nothing more, nothing less, in append order. -/
theorem join_sync_complete (init : Room) (ops : List (Nat × String × DrawElement))
    (uid color : String) :
    (processDraws init ops).elements =
        init.elements ++ ops.map (fun op => { op.2.2 with userId := op.2.1 })
    ∧ (handleWebSocketJoin (processDraws init ops) uid color).2 =
        { type := TypeSync, userId := uid,
          data := .sync (init.elements ++ ops.map (fun op => { op.2.2 with userId := op.2.1 }))
            uid color } := by
  refine ⟨processDraws_elements ops init, ?_⟩
  simp [handleWebSocketJoin, Room.AddClient, Room.GetElements,
    processDraws_elements ops init]

/-- C6: handling a clear message empties the element log (and hence any
snapshot taken before a later append is empty), leaves the membership —
each member's identity, color and closed flag — unchanged, and a joiner
arriving after the clear receives a sync payload with an empty element
list. -/
theorem clear_empties_log (r : Room) (sender : Nat) (cid u uid color : String) (d : MsgData) :
    ((routeMessage r sender cid { type := TypeClear, userId := u, data := d }).1).elements = []
    ∧ ((routeMessage r sender cid { type := TypeClear, userId := u, data := d }).1).GetElements
        = []
    ∧ ((routeMessage r sender cid { type := TypeClear, userId := u, data := d }).1).clients.map
          (fun c => (c.id, c.color, c.closed)) =
        r.clients.map (fun c => (c.id, c.color, c.closed))
    ∧ (handleWebSocketJoin
          (routeMessage r sender cid { type := TypeClear, userId := u, data := d }).1
          uid color).2 =
        { type := TypeSync, userId := uid, data := .sync [] uid color } := by
  have h := routeMessage_clear r sender cid u d
  refine ⟨?_, ?_, ?_, ?_⟩
  · simp [h, Room.BroadcastToAll, Room.ClearElements]
  · simp [h, Room.BroadcastToAll, Room.ClearElements, Room.GetElements]
  · simp only [h, Room.BroadcastToAll, Room.ClearElements]
    exact map_tryEnqueue_proj r.clients { type := TypeClear, userId := cid, data := d }
  · simp [h, handleWebSocketJoin, Room.AddClient, Room.GetElements,
      Room.BroadcastToAll, Room.ClearElements]

theorem routeMessage_setWireIds (r : Room) (sender : Nat) (cid : String) (m : Message)
    (u v : String) :
    routeMessage r sender cid (setWireIds m u v) = routeMessage r sender cid m := by
  obtain ⟨t, uid, dd⟩ := m
  by_cases hd : t = TypeDraw
  · subst hd
    cases dd <;> simp [setWireIds, routeMessage, parseElement]
  · simp [setWireIds, routeMessage, hd]

theorem payload_senderIdOk (r : Room) (sender : Nat) (cid : String) (m : Message) :
    Option.all (senderIdOk cid) (routeMessage r sender cid m).2 = true := by
  obtain ⟨t, uid, dd⟩ := m
  by_cases hd : t = TypeDraw
  · subst hd
    cases hp : parseElement dd with
    | some e =>
        rw [routeMessage_draw_parse r sender cid uid dd e hp]
        simp [senderIdOk]
    | none =>
        rw [routeMessage_draw_noparse r sender cid uid dd hp]
        cases dd <;> simp_all [senderIdOk, parseElement]
  · by_cases hc : t = TypeCursor
    · subst hc
      rw [routeMessage_cursor r sender cid uid dd]
      simp [senderIdOk, TypeCursor, TypeDraw]
    · by_cases hcl : t = TypeClear
      · subst hcl
        rw [routeMessage_clear r sender cid uid dd]
        simp [senderIdOk, TypeClear, TypeDraw]
      · rw [routeMessage_other r sender cid ⟨t, uid, dd⟩ hd hc hcl]
        rfl

theorem stored_elements_ok (r : Room) (sender : Nat) (cid u : String) (d : MsgData) :
    newElementsOk cid r.elements
      (routeMessage r sender cid { type := TypeDraw, userId := u, data := d }).1.elements =
      true := by
  cases hp : parseElement d with
  | some e =>
      rw [routeMessage_draw_parse r sender cid u d e hp]
      simp [newElementsOk, Broadcast_elements, Room.AddElement, List.take_left, List.drop_left]
  | none =>
      rw [routeMessage_draw_noparse r sender cid u d hp]
      simp [newElementsOk, Broadcast_elements, List.take_length, List.drop_length]

/-- C1: the router never trusts wire identity. Two inbound envelopes that
differ only in the wire userId (and, for a draw envelope, the carried
element's userId) produce identical session mutations and identical
broadcast payloads; every broadcast payload carries the connection's
server-assigned id as its userId (and, for a draw payload carrying an
element, as the element's userId); and every element a draw appends to the
log is stored with the connection's id as its author. -/
theorem wire_identity_never_trusted (r : Room) (sender : Nat) (cid : String) (m : Message)
    (u1 v1 u2 v2 u3 : String) (d : MsgData) :
    routeMessage r sender cid (setWireIds m u1 v1) =
        routeMessage r sender cid (setWireIds m u2 v2)
    ∧ Option.all (senderIdOk cid) (routeMessage r sender cid m).2 = true
    ∧ newElementsOk cid r.elements
        (routeMessage r sender cid { type := TypeDraw, userId := u3, data := d }).1.elements =
        true :=
  ⟨(routeMessage_setWireIds r sender cid m u1 v1).trans
      (routeMessage_setWireIds r sender cid m u2 v2).symm,
    payload_senderIdOk r sender cid m,
    stored_elements_ok r sender cid u3 d⟩

theorem AddElement_clients (r : Room) (e : DrawElement) :
    (r.AddElement e).clients = r.clients := rfl

theorem Broadcast_getElem_sender (r : Room) (m : Message) (sender : Nat) :
    (r.Broadcast m sender).clients[sender]? = r.clients[sender]? := by
  rw [Broadcast_getElem]
  cases r.clients[sender]? <;> simp

theorem Broadcast_getElem_other (r : Room) (m : Message) (sender j : Nat) (h : j ≠ sender) :
    (r.Broadcast m sender).clients[j]? = (r.clients[j]?).map (fun c => (tryEnqueue c m).1) := by
  rw [Broadcast_getElem]
  simp [h]

/-- C4: for any membership and any inbound draw or cursor message the
broadcast leaves the sender's queue untouched and subjects every other
member to exactly one non-blocking enqueue attempt of the payload; an
inbound clear message subjects every member, the sender included, to that
enqueue attempt. -/
theorem broadcast_exclusion (r : Room) (sender i : Nat) (cid u : String) (d : MsgData) :
    (routeMessage r sender cid { type := TypeDraw, userId := u, data := d }).1.clients[sender]? =
        r.clients[sender]?
    ∧ (routeMessage r sender cid
          { type := TypeCursor, userId := u, data := d }).1.clients[sender]? =
        r.clients[sender]?
    ∧ (i ≠ sender →
        (routeMessage r sender cid { type := TypeDraw, userId := u, data := d }).1.clients[i]? =
          (r.clients[i]?).map (fun c => (tryEnqueue c (drawBroadcastPayload cid d)).1))
    ∧ (i ≠ sender →
        (routeMessage r sender cid { type := TypeCursor, userId := u, data := d }).1.clients[i]? =
          (r.clients[i]?).map
            (fun c => (tryEnqueue c { type := TypeCursor, userId := cid, data := d }).1))
    ∧ (routeMessage r sender cid { type := TypeClear, userId := u, data := d }).1.clients[i]? =
        (r.clients[i]?).map
          (fun c => (tryEnqueue c { type := TypeClear, userId := cid, data := d }).1) := by
  refine ⟨?_, ?_, fun hi => ?_, fun hi => ?_, ?_⟩
  · cases hp : parseElement d with
    | some e =>
        rw [routeMessage_draw_parse r sender cid u d e hp, Broadcast_getElem_sender,
          AddElement_clients]
    | none =>
        rw [routeMessage_draw_noparse r sender cid u d hp, Broadcast_getElem_sender]
  · rw [routeMessage_cursor r sender cid u d, Broadcast_getElem_sender]
  · cases hp : parseElement d with
    | some e =>
        rw [routeMessage_draw_parse r sender cid u d e hp,
          Broadcast_getElem_other _ _ _ _ hi, AddElement_clients]
        simp [drawBroadcastPayload, hp]
    | none =>
        rw [routeMessage_draw_noparse r sender cid u d hp,
          Broadcast_getElem_other _ _ _ _ hi]
        simp [drawBroadcastPayload, hp]
  · rw [routeMessage_cursor r sender cid u d, Broadcast_getElem_other _ _ _ _ hi]
  · rw [routeMessage_clear r sender cid u d]
    simp [Room.BroadcastToAll, Room.ClearElements]

/-- Witness for C4 in a concrete two-member room: A at position 0 sends; A's
queue is untouched by draw and cursor, B's queue receives the attempt, and a
clear attempt reaches both A and B. -/
theorem broadcast_exclusion_witness :
    (routeMessage roomAB 0 "A"
          { type := TypeDraw, userId := "evil", data := .element elemA }).1.clients[0]? =
        roomAB.clients[0]?
    ∧ (routeMessage roomAB 0 "A"
          { type := TypeDraw, userId := "evil", data := .element elemA }).1.clients[1]? =
        (roomAB.clients[1]?).map
          (fun c => (tryEnqueue c (drawBroadcastPayload "A" (.element elemA))).1)
    ∧ (routeMessage roomAB 0 "A"
          { type := TypeCursor, userId := "evil", data := .element elemA }).1.clients[1]? =
        (roomAB.clients[1]?).map
          (fun c =>
            (tryEnqueue c { type := TypeCursor, userId := "A", data := .element elemA }).1)
    ∧ (routeMessage roomAB 0 "A"
          { type := TypeClear, userId := "evil", data := .nullData }).1.clients[0]? =
        (roomAB.clients[0]?).map
          (fun c => (tryEnqueue c { type := TypeClear, userId := "A", data := .nullData }).1) := by
  obtain ⟨h1, -, h3, h4, -⟩ :=
    broadcast_exclusion roomAB 0 1 "A" "evil" (.element elemA)
  obtain ⟨-, -, -, -, h5⟩ := broadcast_exclusion roomAB 0 0 "A" "evil" (.nullData)
  exact ⟨h1, h3 (by decide), h4 (by decide), h5⟩

theorem connReachable_flags : ∀ {s : ConnState}, ConnReachable s → s.closed = s.sendClosed := by
  intro s h
  induction h with
  | init => rfl
  | teardown _ _ => rfl
  | enqueue _ he ih =>
      unfold enqueueStep at he
      split_ifs at he with h1 h2 h3 <;>
        (injection he with he; subst he; exact ih)
  | drain _ ih => simpa [drainStep] using ih

/-- C5: in every reachable state of a connection, a broadcast's enqueue
attempt never panics by sending on a closed channel (the attempt always has
a defined result), and once teardown has run — the closed flag and channel
closure are set in the same critical section — every later enqueue attempt
leaves the connection's state, its queue included, completely unchanged. -/
theorem no_send_after_close (s : ConnState) (m : Message) (h : ConnReachable s) :
    enqueueStep s m ≠ none ∧ (s.sendClosed = true → enqueueStep s m = some s) := by
  have hf := connReachable_flags h
  by_cases hc : s.closed
  · constructor
    · simp [enqueueStep, hc]
    · intro _; simp [enqueueStep, hc]
  · have hcf : s.closed = false := by simpa using hc
    have hsc : s.sendClosed = false := by rw [← hf]; exact hcf
    constructor
    · simp only [enqueueStep, hcf, hsc]
      split_ifs <;> simp
    · intro hcontra
      rw [hsc] at hcontra
      exact absurd hcontra (by decide)

/-- Witness for C5: the state right after teardown (flag set, channel
closed, queue drained) is reachable, and an enqueue attempt there is a
defined no-op. -/
theorem no_send_after_close_witness :
    enqueueStep { closed := true, sendClosed := true, send := [] } msgK ≠ none
    ∧ (({ closed := true, sendClosed := true, send := [] } : ConnState).sendClosed = true →
        enqueueStep { closed := true, sendClosed := true, send := [] } msgK =
          some { closed := true, sendClosed := true, send := [] }) :=
  no_send_after_close { closed := true, sendClosed := true, send := [] } msgK
    (ConnReachable.teardown ConnReachable.init)


theorem enqueueAll_cons (c : Client) (m : Message) (ms : List Message) :
    enqueueAll c (m :: ms) =
      ((enqueueAll (tryEnqueue c m).1 ms).1,
        (tryEnqueue c m).2 :: (enqueueAll (tryEnqueue c m).1 ms).2) := rfl

theorem enqueueAll_spec :
    ∀ (ms : List Message) (c : Client), c.closed = false →
      (enqueueAll c ms).1.send = c.send ++ ms.take (sendCap - c.send.length)
      ∧ (enqueueAll c ms).2 =
          List.replicate (min ms.length (sendCap - c.send.length)) true ++
            List.replicate (ms.length - (sendCap - c.send.length)) false := by
  intro ms
  induction ms with
  | nil => intro c hc; simp [enqueueAll]
  | cons m ms ih =>
      intro c hc
      by_cases hlen : c.send.length < sendCap
      · have htry : tryEnqueue c m = ({ c with send := c.send ++ [m] }, true) := by
          simp [tryEnqueue, hc, hlen]
        obtain ⟨ih1, ih2⟩ := ih { c with send := c.send ++ [m] } hc
        simp only [List.length_append, List.length_cons, List.length_nil] at ih1 ih2
        rw [enqueueAll_cons, htry]
        constructor
        · simp only [ih1]
          have hk : sendCap - c.send.length = (sendCap - (c.send.length + 1)) + 1 := by
            omega
          rw [hk, List.take_succ_cons]
          simp
        · simp only [ih2, List.length_cons]
          have h1 : min (ms.length + 1) (sendCap - c.send.length) =
              min ms.length (sendCap - (c.send.length + 1)) + 1 := by omega
          have h2 : (ms.length + 1) - (sendCap - c.send.length) =
              ms.length - (sendCap - (c.send.length + 1)) := by omega
          rw [h1, h2, List.replicate_succ]
          simp
      · have htry : tryEnqueue c m = (c, false) := by
          simp [tryEnqueue, hc, hlen]
        obtain ⟨ih1, ih2⟩ := ih c hc
        have hk : sendCap - c.send.length = 0 := by omega
        rw [enqueueAll_cons, htry]
        constructor
        · simp [ih1, hk]
        · simp only [ih2, List.length_cons, hk]
          simp [List.replicate_succ]

/-- C7: the outbound queue's capacity is the fixed constant 256; attempting
C+1 enqueues on a fresh open connection with no consumer draining delivers
the first C payloads in order (the queue then holds exactly them) and drops
exactly the (C+1)th, and — `enqueueAll` being a total function built from
the non-blocking `tryEnqueue` — no attempt blocks. -/
theorem drop_under_load (ms : List Message) (uid color : String)
    (h : ms.length = sendCap + 1) :
    sendCap = 256
    ∧ (enqueueAll { id := uid, color := color, send := [], closed := false } ms).1.send =
        ms.take sendCap
    ∧ (enqueueAll { id := uid, color := color, send := [], closed := false } ms).2 =
        List.replicate sendCap true ++ [false] := by
  obtain ⟨h1, h2⟩ :=
    enqueueAll_spec ms { id := uid, color := color, send := [], closed := false } rfl
  refine ⟨rfl, ?_, ?_⟩
  · simpa using h1
  · rw [h2]
    have e1 : min ms.length (sendCap - ([] : List Message).length) = sendCap := by
      simp; omega
    have e2 : ms.length - (sendCap - ([] : List Message).length) = 1 := by
      simp; omega
    simp only [List.length_nil] at e1 e2 ⊢
    rw [e1, e2]
    rfl

/-- Witness for C7: 257 enqueue attempts on a fresh connection deliver the
first 256 and drop the last. -/
theorem drop_under_load_witness :
    sendCap = 256
    ∧ (enqueueAll { id := "A", color := "#e74c3c", send := [], closed := false }
          (List.replicate 257 msgK)).1.send = (List.replicate 257 msgK).take sendCap
    ∧ (enqueueAll { id := "A", color := "#e74c3c", send := [], closed := false }
          (List.replicate 257 msgK)).2 = List.replicate sendCap true ++ [false] :=
  drop_under_load (List.replicate 257 msgK) "A" "#e74c3c" (by simp [sendCap])

theorem randStep_lt (seed : Nat) : randStep seed < uint64Mod :=
  Nat.mod_lt _ (by norm_num [uint64Mod])

theorem randomInt_bounds (seed : Nat) (mx : Int) (h : 0 < mx) :
    0 ≤ (randomInt mx seed).1 ∧ (randomInt mx seed).1 < mx := by
  have hs : randStep seed < uint64Mod := randStep_lt seed
  have hdiv : randStep seed / 65536 < 2 ^ 63 := by
    have h48 : randStep seed / 65536 < 2 ^ 48 := by
      rw [Nat.div_lt_iff_lt_mul (by norm_num)]
      calc randStep seed < uint64Mod := hs
        _ ≤ 2 ^ 48 * 65536 := by norm_num [uint64Mod]
    exact lt_trans h48 (by norm_num)
  have hnn : (0 : Int) ≤ int64OfUInt64 (randStep seed / 65536) := by
    unfold int64OfUInt64
    rw [if_pos hdiv]
    exact Int.ofNat_nonneg _
  show 0 ≤ Int.tmod (int64OfUInt64 (randStep seed / 65536)) mx ∧
    Int.tmod (int64OfUInt64 (randStep seed / 65536)) mx < mx
  rw [Int.tmod_eq_emod hnn (le_of_lt h)]
  exact ⟨Int.emod_nonneg _ (ne_of_gt h), Int.emod_lt_of_pos _ h⟩

theorem randomChars_length (n : Nat) : ∀ seed, (randomChars n seed).1.length = n := by
  induction n with
  | zero => intro seed; rfl
  | succ n ih => intro seed; simp [randomChars, ih]

theorem randomChars_mem (n : Nat) :
    ∀ seed ch, ch ∈ (randomChars n seed).1 → ch ∈ letters.toList := by
  induction n with
  | zero => intro seed ch hm; simp [randomChars] at hm
  | succ n ih =>
      intro seed ch hm
      simp only [randomChars, List.mem_cons] at hm
      cases hm with
      | inl hm =>
          subst hm
          by_cases hk :
              ((randomInt (letters.length : Int) seed).1).toNat < letters.toList.length
          · rw [List.getD_eq_getElem _ _ hk]
            exact List.getElem_mem hk
          · rw [List.getD_eq_default _ _ (le_of_not_lt hk)]
            decide
      | inr hm => exact ih _ _ hm

/-- C9: for every positive bound the generator's result lies in range — the
seed stays below 2^64, its quotient by 65536 is below 2^63, so the Go
uint64-to-int conversion is non-negative and the truncated remainder lands
in the interval — hence the alphabet index is always in bounds, and
randomString returns exactly n characters, all drawn from the 62-character
alphabet. -/
theorem random_generator_in_range (seed : Nat) (mx : Int) (n : Nat) (h : 0 < mx) :
    (0 ≤ (randomInt mx seed).1 ∧ (randomInt mx seed).1 < mx)
    ∧ ((randomInt (letters.length : Int) seed).1).toNat < letters.length
    ∧ (randomString n seed).1.length = n
    ∧ ((randomString n seed).1.toList).all (fun ch => letters.toList.contains ch) = true := by
  refine ⟨randomInt_bounds seed mx h, ?_, ?_, ?_⟩
  · obtain ⟨h0, h1⟩ := randomInt_bounds seed (letters.length : Int) (by decide)
    omega
  · show (String.mk (randomChars n seed).1).length = n
    simp [String.length, randomChars_length n seed]
  · rw [List.all_eq_true]
    intro ch hch
    have hm : ch ∈ (randomChars n seed).1 := by
      simpa [randomString, String.toList] using hch
    have := randomChars_mem n seed ch hm
    exact List.elem_eq_true_of_mem this

/-- Witness for C9 at the initial seed and the alphabet bound 62. -/
theorem random_generator_in_range_witness :
    (0 ≤ (randomInt 62 1).1 ∧ (randomInt 62 1).1 < 62)
    ∧ ((randomInt (letters.length : Int) 1).1).toNat < letters.length
    ∧ (randomString 8 1).1.length = 8
    ∧ ((randomString 8 1).1.toList).all (fun ch => letters.toList.contains ch) = true :=
  random_generator_in_range 1 62 8 (by decide)

theorem genTrace_det :
    ∀ {seed : Nat} {ids1 : List String}, GenTrace seed ids1 →
      ∀ {ids2 : List String}, GenTrace seed ids2 → ids1.length = ids2.length →
        ids1 = ids2 := by
  intro seed ids1 h1
  induction h1 with
  | nil _ =>
      intro ids2 h2 hl
      cases h2 with
      | nil => rfl
      | cons _ _ _ _ _ _ => simp at hl
  | cons s uid seed' ids hgen htail ih =>
      intro ids2 h2 hl
      cases h2 with
      | nil => simp at hl
      | cons _ uid2 seed2' ids2' hgen2 htail2 =>
          have hpair := hgen.symm.trans hgen2
          injection hpair with ha hb
          subst ha
          subst hb
          have : ids = ids2' := ih htail2 (by simpa using hl)
          rw [this]

theorem genTrace_len8 :
    ∀ {seed : Nat} {ids : List String}, GenTrace seed ids →
      ids.all (fun s => s.length == 8) = true := by
  intro seed ids h
  induction h with
  | nil _ => rfl
  | cons s uid seed' ids hgen _ ih =>
      have huid : uid = (randomString 8 s).1 := by
        have := congrArg Prod.fst hgen
        simpa [generateID] using this.symm
      have hlen : uid.length = 8 := by
        rw [huid]
        show (String.mk (randomChars 8 s).1).length = 8
        simp [String.length, randomChars_length 8 s]
      simp [List.all_cons, hlen, ih]

/-- C10: the id generator is deterministic, not random — the
linear-congruential seed starts from the fixed constant 1, so any two
process runs making the same number of generateID calls emit the identical
sequence of 8-character ids. -/
theorem id_generation_deterministic (ids1 ids2 : List String)
    (h1 : GenTrace randSeedInit ids1) (h2 : GenTrace randSeedInit ids2)
    (hl : ids1.length = ids2.length) :
    ids1 = ids2 ∧ randSeedInit = 1 ∧ ids1.all (fun s => s.length == 8) = true :=
  ⟨genTrace_det h1 h2 hl, rfl, genTrace_len8 h1⟩

/-- Witness for C10: two one-call runs from the constant seed both emit the
concrete id "Ks3HxRsF". -/
theorem id_generation_deterministic_witness :
    (["Ks3HxRsF"] : List String) = ["Ks3HxRsF"]
    ∧ randSeedInit = 1
    ∧ (["Ks3HxRsF"] : List String).all (fun s => s.length == 8) = true :=
  id_generation_deterministic ["Ks3HxRsF"] ["Ks3HxRsF"]
    (GenTrace.cons 1 "Ks3HxRsF" 9715927332899499577 [] (by decide) (GenTrace.nil _))
    (GenTrace.cons 1 "Ks3HxRsF" 9715927332899499577 [] (by decide) (GenTrace.nil _))
    rfl
